import Mathlib

set_option linter.unusedVariables false

/-!
# Verification of the smartroute routing core

Shallow embedding of the routing core of the `smartroute` repository:

* `score_calculator.py`  (`ScoreCalculator`)
* `subway_graph.py`      (`SubwayGraph`, static topology tables)
* `dijkstra_router.py`   (`DijkstraRouter`)
* `lambda_deploy/route_optimizer.py` (`RouteOptimizer`)

Python `dict`s are embedded as association lists (first match wins on
lookup), numeric values as exact rationals `ℚ` (the idealisation of
Python's `float` arithmetic), and the fallible search as `Option`.
-/

namespace SmartRoute

/- The Batteries rational-number operations are `@[irreducible]`, which
blocks `decide` on concrete rational computations; restore the default
reducibility locally so concrete routes and scores can be evaluated. -/
attribute [local semireducible] Rat.add Rat.mul Rat.sub Rat.inv Rat.ofScientific

/-! ## Python rounding

Python's built-in `round` (and hence `int(round(x))` in
`score_calculator.py`) rounds halves to the nearest even integer
(banker's rounding). -/

/-- Python's `int(round(x))`: round to nearest, halves to even. -/
def pyRound (x : ℚ) : ℤ :=
  if x - ⌊x⌋ < 1/2 then ⌊x⌋
  else if 1/2 < x - ⌊x⌋ then ⌊x⌋ + 1
  else if ⌊x⌋ % 2 = 0 then ⌊x⌋ else ⌊x⌋ + 1

/-! ## `score_calculator.py` — `ScoreCalculator`

The class holds `crime_data : Dict[str, count]` and
`line_performance : Dict[str, percent]`.  We model both as association
lists with rational values; the `line_performance` values, which in the
source may be either a plain number or a dict carrying
`on_time_percent`, are modelled by the extracted `on_time_percent`
number itself.

Of the baseline dictionaries produced by `_calculate_crime_baseline` /
`_calculate_reliability_baseline`, the scoring functions consult only
the `'mean'` field, so only that field is embedded. -/

/-- A Python `dict` with string keys and numeric values. -/
abbrev NumMap := List (String × ℚ)

/-- `d.get(k, default)` on an association list. -/
def lookupD (m : NumMap) (k : String) (d : ℚ) : ℚ :=
  match m.find? (fun p => p.1 == k) with
  | some p => p.2
  | none => d

/-- `d.get(k)` returning an `Option`. -/
def lookup? (m : NumMap) (k : String) : Option ℚ :=
  (m.find? (fun p => p.1 == k)).map Prod.snd

/-- `list(d.values())`. -/
def mapValues (m : NumMap) : List ℚ := m.map Prod.snd

/-- `statistics.mean` over a list of rationals. -/
def listMean (l : List ℚ) : ℚ := l.sum / l.length

/-- The `'mean'` field of `_calculate_crime_baseline`: the hardcoded
neutral value 5 for an empty crime map, otherwise the mean of all
crime counts. -/
def crime_baseline_mean (crime_data : NumMap) : ℚ :=
  if crime_data.isEmpty then 5 else listMean (mapValues crime_data)

/-- The `'mean'` field of `_calculate_reliability_baseline`: the
hardcoded value 85 for an empty performance map, otherwise the mean of
all on-time percentages. -/
def reliability_baseline_mean (line_performance : NumMap) : ℚ :=
  if line_performance.isEmpty then 85 else listMean (mapValues line_performance)

/-- The shared percentile→score piecewise map used by both
`calculate_safety_score` and `calculate_reliability_score`
(the five-tier `if percentile >= 90: ... else: 2 + percentile / 25`
cascade), before `int(round(...))`. -/
def tierScore (percentile : ℚ) : ℚ :=
  if 90 ≤ percentile then 10
  else if 75 ≤ percentile then 8 + (percentile - 75) / 15
  else if 50 ≤ percentile then 6 + (percentile - 50) / 25
  else if 25 ≤ percentile then 4 + (percentile - 25) / 25
  else 2 + percentile / 25

/-- `ScoreCalculator.calculate_safety_score(stations)` with crime map
`crime_data`.  Missing stations default to the crime baseline mean;
`crime_count` counts known crime values `c >= route_avg_crime`, and
`percentile = (len(all_crimes) - crime_count) / len(all_crimes) * 100`. -/
def calculate_safety_score (crime_data : NumMap) (stations : List String) : ℤ :=
  if stations.isEmpty then 5
  else
    let crimes_list := stations.map (fun s => lookupD crime_data s (crime_baseline_mean crime_data))
    let route_avg_crime := crimes_list.sum / crimes_list.length
    let all_crimes := mapValues crime_data
    let percentile : ℚ :=
      if all_crimes.isEmpty then
        if route_avg_crime ≤ crime_baseline_mean crime_data then 50 else 30
      else
        let crime_count := (all_crimes.filter (fun c => route_avg_crime ≤ c)).length
        ((all_crimes.length : ℚ) - crime_count) / all_crimes.length * 100
    pyRound (tierScore percentile)

/-- `ScoreCalculator.calculate_reliability_score(lines)` with
performance map `line_performance`.  Missing lines default to the
reliability baseline mean; `better_count` counts known on-time values
`p < route_avg_performance`, and
`percentile = better_count / len(all_perfs) * 100`. -/
def calculate_reliability_score (line_performance : NumMap) (lines : List String) : ℤ :=
  if lines.isEmpty then 5
  else
    let performance_list :=
      lines.map (fun l => lookupD line_performance l (reliability_baseline_mean line_performance))
    let route_avg_performance := performance_list.sum / performance_list.length
    let all_perfs := mapValues line_performance
    let percentile : ℚ :=
      if all_perfs.isEmpty then
        if reliability_baseline_mean line_performance ≤ route_avg_performance then 50 else 30
      else
        let better_count := (all_perfs.filter (fun p => p < route_avg_performance)).length
        (better_count : ℚ) / all_perfs.length * 100
    pyRound (tierScore percentile)

/-- `ScoreCalculator.calculate_efficiency_score(num_transfers,
travel_time_minutes)`: `transfer_penalty = min(num_transfers * 1.5, 10)`
and `int(round(max(0, min(10, 10 - transfer_penalty))))`.  The
`travel_time_minutes` argument is only logged, never used. -/
def calculate_efficiency_score (num_transfers : ℕ) (travel_time_minutes : ℤ) : ℤ :=
  let transfer_penalty : ℚ := min ((num_transfers : ℚ) * 1.5) 10
  let efficiency_score : ℚ := max 0 (min 10 (10 - transfer_penalty))
  pyRound efficiency_score

/-- Modelled from the spec (for comparison with the code):
"percentile = fraction of all known crime values that are ≥ this
average" (× 100), the route average being taken as in
`calculate_safety_score`. -/
def spec_safety_percentile (crime_data : NumMap) (stations : List String) : ℚ :=
  let crimes_list := stations.map (fun s => lookupD crime_data s (crime_baseline_mean crime_data))
  let route_avg_crime := crimes_list.sum / crimes_list.length
  let all_crimes := mapValues crime_data
  ((all_crimes.filter (fun c => route_avg_crime ≤ c)).length : ℚ) / all_crimes.length * 100

/-- The percentile value actually computed by `calculate_safety_score`
on a non-empty crime map (extracted for stating claims about it). -/
def code_safety_percentile (crime_data : NumMap) (stations : List String) : ℚ :=
  let crimes_list := stations.map (fun s => lookupD crime_data s (crime_baseline_mean crime_data))
  let route_avg_crime := crimes_list.sum / crimes_list.length
  let all_crimes := mapValues crime_data
  let crime_count := (all_crimes.filter (fun c => route_avg_crime ≤ c)).length
  ((all_crimes.length : ℚ) - crime_count) / all_crimes.length * 100

/-! ## `subway_graph.py` — static topology and `SubwayGraph`

`_build_graph` folds the two static tables into a dict
`(station, line) → [(next_station, line, time), ...]`.  A key `(s, l)`
receives entries only from line `l`'s consecutive-pair loop (forward
edge appended before reverse edge, in index order) followed by the
transfer list declared for `(s, l)`; no other iteration touches that
key, and `get_adjacent_stations` reads the dict with default `[]`.
The embedding therefore defines the per-key adjacency list directly by
that composition. -/

/-- `SUBWAY_LINES`: each line code with its ordered station list,
in the dict's insertion order. -/
def SUBWAY_LINES : List (String × List String) := [
  ("1", ["South Ferry",
    "Rector Street",
    "Cortlandt Street",
    "Chambers Street",
    "Franklin Street",
    "Canal Street",
    "Spring Street",
    "Houston Street",
    "14th Street",
    "18th Street",
    "23rd Street",
    "28th Street",
    "34th Street-Herald Square",
    "42nd Street-Times Square",
    "49th Street",
    "59th Street-Columbus Circle",
    "72nd Street",
    "79th Street"]),
  ("2", ["Bowling Green",
    "Wall Street",
    "Fulton Street",
    "Park Place",
    "Chambers Street",
    "Franklin Street",
    "Canal Street",
    "Spring Street",
    "Houston Street",
    "14th Street",
    "18th Street",
    "23rd Street",
    "28th Street",
    "34th Street-Herald Square",
    "42nd Street-Times Square",
    "49th Street",
    "59th Street-Columbus Circle",
    "72nd Street"]),
  ("3", ["Bowling Green",
    "Wall Street",
    "Fulton Street",
    "Park Place",
    "Chambers Street",
    "Franklin Street",
    "Canal Street",
    "Spring Street",
    "Houston Street",
    "14th Street",
    "18th Street",
    "23rd Street",
    "28th Street",
    "34th Street-Herald Square",
    "42nd Street-Times Square",
    "49th Street",
    "59th Street-Columbus Circle",
    "72nd Street"]),
  ("4", ["Bowling Green",
    "Wall Street",
    "Fulton Street",
    "Park Place",
    "Chambers Street",
    "Brooklyn Bridge-City Hall",
    "Spring Street",
    "Canal Street",
    "14th Street-Union Square",
    "18th Street",
    "23rd Street-Lexington",
    "28th Street-Lexington",
    "33rd Street",
    "Grand Central-42nd Street",
    "59th Street",
    "86th Street"]),
  ("5", ["Bowling Green",
    "Wall Street",
    "Fulton Street",
    "Park Place",
    "Chambers Street",
    "Brooklyn Bridge-City Hall",
    "Spring Street",
    "Canal Street",
    "14th Street-Union Square",
    "18th Street",
    "23rd Street-Lexington",
    "28th Street-Lexington",
    "33rd Street",
    "Grand Central-42nd Street",
    "59th Street",
    "86th Street"]),
  ("6", ["Bowling Green",
    "Wall Street",
    "Fulton Street",
    "Park Place",
    "Chambers Street",
    "Brooklyn Bridge-City Hall",
    "Spring Street",
    "Canal Street",
    "14th Street-Union Square",
    "18th Street",
    "23rd Street-Lexington",
    "28th Street-Lexington",
    "33rd Street",
    "Grand Central-42nd Street",
    "59th Street"]),
  ("A", ["Inwood-207th Street",
    "175th Street",
    "145th Street",
    "125th Street",
    "59th Street-Columbus Circle",
    "42nd Street-Port Authority",
    "34th Street-Penn Station",
    "14th Street",
    "8th Avenue-14th Street",
    "West 4th Street",
    "Spring Street",
    "Canal Street",
    "Chambers Street",
    "Fulton Street",
    "Jay Street-MetroTech",
    "High Street-Brooklyn Bridge",
    "Hoyt-Schermerhorn",
    "Carroll Street",
    "Nostrand Avenue",
    "Kingston-Throop Avenues"]),
  ("C", ["168th Street",
    "145th Street",
    "125th Street",
    "110th Street",
    "72nd Street",
    "59th Street-Columbus Circle",
    "42nd Street-Port Authority",
    "34th Street-Penn Station",
    "14th Street",
    "8th Avenue-14th Street",
    "West 4th Street",
    "Spring Street",
    "Canal Street",
    "Chambers Street",
    "Fulton Street",
    "Jay Street-MetroTech",
    "Hoyt-Schermerhorn",
    "Carroll Street",
    "Nostrand Avenue"]),
  ("E", ["Jamaica Center-Parsons/Archer",
    "Forest Hills-71st Avenue",
    "Jackson Heights-Roosevelt Avenue",
    "42nd Street-Port Authority",
    "34th Street-Penn Station",
    "14th Street",
    "8th Avenue-14th Street",
    "West 4th Street",
    "Spring Street",
    "Canal Street",
    "World Trade Center"]),
  ("F", ["Jamaica Center-Parsons/Archer",
    "Forest Hills-71st Avenue",
    "Jackson Heights-Roosevelt Avenue",
    "23rd Street-Broadway-Lafayette",
    "14th Street-Broadway-Lafayette",
    "West 4th Street",
    "Broadway-Lafayette",
    "Spring Street",
    "Canal Street",
    "Chambers Street",
    "Jay Street-MetroTech",
    "Carroll Street",
    "Court Street",
    "Bergen Street",
    "Hoyt-Schermerhorn"]),
  ("N", ["Astoria-Ditmars Boulevard",
    "30th Avenue",
    "Astoria Boulevard",
    "Queensboro Plaza",
    "Lexington Avenue",
    "Herald Square",
    "28th Street-Broadway",
    "23rd Street-Broadway",
    "14th Street",
    "8th Street",
    "Union Square-14th Street",
    "Canal Street",
    "Chambers Street",
    "Cortlandt Street",
    "Rector Street",
    "Whitehall Terminal"]),
  ("Q", ["96th Street",
    "72nd Street",
    "57th Street",
    "42nd Street-Times Square",
    "34th Street",
    "Herald Square",
    "28th Street-Broadway",
    "23rd Street-Broadway",
    "14th Street",
    "Canal Street",
    "Chambers Street",
    "Cortlandt Street",
    "Bowling Green"]),
  ("R", ["Forest Hills-71st Avenue",
    "Jackson Heights-Roosevelt Avenue",
    "Queensboro Plaza",
    "Lexington Avenue",
    "Herald Square",
    "28th Street-Broadway",
    "23rd Street-Broadway",
    "14th Street",
    "8th Street",
    "Canal Street",
    "Chambers Street",
    "Cortlandt Street",
    "Rector Street",
    "Whitehall Terminal"]),
  ("W", ["Astoria-Ditmars Boulevard",
    "30th Avenue",
    "Astoria Boulevard",
    "Queensboro Plaza",
    "Lexington Avenue",
    "Herald Square",
    "28th Street-Broadway",
    "23rd Street-Broadway",
    "14th Street",
    "Canal Street",
    "Chambers Street",
    "Cortlandt Street",
    "Whitehall Terminal"]),
  ("L", ["8th Avenue-14th Street",
    "6th Avenue",
    "Union Square-14th Street",
    "1st Avenue",
    "Bedford Avenue",
    "Lorimer Street",
    "Graham Avenue",
    "Jefferson Street",
    "Myrtle Avenue"]),
  ("G", ["Court Square",
    "Greenpoint Avenue",
    "Nassau Avenue",
    "Metropolitan Avenue",
    "Broadway",
    "Myrtle-Willoughby Avenues",
    "Clinton-Washington",
    "Classon Avenue",
    "Nostrand Avenue",
    "Bedford-Stuyvesant",
    "Hoyt-Schermerhorn",
    "Carroll Street",
    "Fulton Street"]),
  ("S", ["42nd Street-Times Square",
    "Grand Central-42nd Street"]),
  ("7", ["Flushing-Main Street",
    "Woodside",
    "Jackson Heights-Roosevelt Avenue",
    "Queens Plaza",
    "Lexington Avenue",
    "Grand Central-42nd Street",
    "34th Street-Herald Square",
    "28th Street",
    "23rd Street",
    "18th Street",
    "14th Street",
    "42nd Street-Times Square"])]

/-- `TRANSFER_POINTS`: `(from_station, from_line)` keys with their
declared `(to_station, to_line, walking_time_minutes)` targets, in
the dict's insertion order. -/
def TRANSFER_POINTS : List ((String × String) × List (String × String × ℕ)) := [
  (("Canal Street", "1"), [("Canal Street", "2", 1),
    ("Canal Street", "3", 1),
    ("Canal Street", "4", 2),
    ("Canal Street", "5", 2),
    ("Canal Street", "6", 2),
    ("Canal Street", "A", 2),
    ("Canal Street", "C", 2)]),
  (("Canal Street", "N"), [("Canal Street", "R", 1),
    ("Canal Street", "W", 1),
    ("Canal Street", "A", 2),
    ("Canal Street", "C", 2),
    ("Canal Street", "1", 2),
    ("Canal Street", "2", 2),
    ("Canal Street", "6", 2)]),
  (("42nd Street-Times Square", "1"), [("42nd Street-Times Square", "2", 1),
    ("42nd Street-Times Square", "3", 1),
    ("42nd Street-Times Square", "Q", 2),
    ("42nd Street-Times Square", "N", 2),
    ("42nd Street-Times Square", "R", 2),
    ("42nd Street-Times Square", "W", 2),
    ("42nd Street-Times Square", "S", 1),
    ("Grand Central-42nd Street", "4", 3),
    ("Grand Central-42nd Street", "5", 3),
    ("Grand Central-42nd Street", "6", 3),
    ("Grand Central-42nd Street", "7", 3)]),
  (("42nd Street-Times Square", "S"), [("Grand Central-42nd Street", "4", 1),
    ("Grand Central-42nd Street", "5", 1),
    ("Grand Central-42nd Street", "6", 1),
    ("Grand Central-42nd Street", "7", 1)]),
  (("Grand Central-42nd Street", "4"), [("42nd Street-Times Square", "1", 3),
    ("42nd Street-Times Square", "3", 3),
    ("42nd Street-Times Square", "S", 1)]),
  (("Grand Central-42nd Street", "5"), [("42nd Street-Times Square", "1", 3),
    ("42nd Street-Times Square", "3", 3),
    ("42nd Street-Times Square", "S", 1)]),
  (("Grand Central-42nd Street", "6"), [("42nd Street-Times Square", "1", 3),
    ("42nd Street-Times Square", "3", 3),
    ("42nd Street-Times Square", "S", 1)]),
  (("Grand Central-42nd Street", "7"), [("42nd Street-Times Square", "1", 3),
    ("42nd Street-Times Square", "S", 1)]),
  (("Grand Central-42nd Street", "S"), [("42nd Street-Times Square", "1", 1),
    ("42nd Street-Times Square", "3", 1)]),
  (("14th Street", "1"), [("14th Street", "2", 1),
    ("14th Street", "3", 1),
    ("14th Street-Union Square", "4", 2),
    ("14th Street-Union Square", "5", 2),
    ("14th Street-Union Square", "6", 2),
    ("14th Street-Union Square", "L", 1),
    ("14th Street", "N", 2),
    ("14th Street", "Q", 2),
    ("14th Street", "R", 2),
    ("14th Street", "W", 2),
    ("8th Avenue-14th Street", "A", 2),
    ("8th Avenue-14th Street", "C", 2),
    ("8th Avenue-14th Street", "E", 2),
    ("8th Avenue-14th Street", "L", 2)]),
  (("Jay Street-MetroTech", "A"), [("Jay Street-MetroTech", "C", 1),
    ("Jay Street-MetroTech", "F", 2),
    ("Jay Street-MetroTech", "R", 2),
    ("High Street-Brooklyn Bridge", "A", 1)]),
  (("Jay Street-MetroTech", "C"), [("Jay Street-MetroTech", "A", 1),
    ("Jay Street-MetroTech", "F", 2),
    ("Jay Street-MetroTech", "R", 2)]),
  (("Fulton Street", "2"), [("Fulton Street", "3", 1),
    ("Fulton Street", "4", 1),
    ("Fulton Street", "5", 1),
    ("Fulton Street", "6", 1),
    ("Fulton Street", "A", 1),
    ("Fulton Street", "C", 1)]),
  (("Fulton Street", "3"), [("Fulton Street", "2", 1),
    ("Fulton Street", "4", 1),
    ("Fulton Street", "5", 1),
    ("Fulton Street", "6", 1),
    ("Fulton Street", "A", 1),
    ("Fulton Street", "C", 1)]),
  (("Fulton Street", "4"), [("Fulton Street", "2", 1),
    ("Fulton Street", "3", 1),
    ("Fulton Street", "5", 1),
    ("Fulton Street", "6", 1),
    ("Fulton Street", "A", 1),
    ("Fulton Street", "C", 1)]),
  (("Fulton Street", "5"), [("Fulton Street", "2", 1),
    ("Fulton Street", "3", 1),
    ("Fulton Street", "4", 1),
    ("Fulton Street", "6", 1),
    ("Fulton Street", "A", 1),
    ("Fulton Street", "C", 1)]),
  (("Fulton Street", "6"), [("Fulton Street", "2", 1),
    ("Fulton Street", "3", 1),
    ("Fulton Street", "4", 1),
    ("Fulton Street", "5", 1),
    ("Fulton Street", "A", 1),
    ("Fulton Street", "C", 1)]),
  (("Fulton Street", "A"), [("Fulton Street", "C", 1),
    ("Fulton Street", "2", 1),
    ("Fulton Street", "3", 1),
    ("Fulton Street", "4", 1),
    ("Fulton Street", "5", 1),
    ("Fulton Street", "6", 1)]),
  (("Fulton Street", "C"), [("Fulton Street", "A", 1),
    ("Fulton Street", "2", 1),
    ("Fulton Street", "3", 1),
    ("Fulton Street", "4", 1),
    ("Fulton Street", "5", 1),
    ("Fulton Street", "6", 1)]),
  (("Canal Street", "A"), [("Canal Street", "C", 1),
    ("Canal Street", "1", 2),
    ("Canal Street", "2", 2),
    ("Canal Street", "4", 2),
    ("Canal Street", "5", 2),
    ("Canal Street", "6", 2),
    ("Jay Street-MetroTech", "A", 3)]),
  (("Canal Street", "C"), [("Canal Street", "A", 1),
    ("Canal Street", "1", 2),
    ("Canal Street", "2", 2),
    ("Canal Street", "4", 2),
    ("Canal Street", "5", 2),
    ("Canal Street", "6", 2),
    ("Jay Street-MetroTech", "C", 3)])]

/-- `SUBWAY_LINES[line]`, with `[]` for an unknown line code. -/
def lineStations (line : String) : List String :=
  match SUBWAY_LINES.find? (fun p => p.1 == line) with
  | some p => p.2
  | none => []

/-- `TRANSFER_POINTS.get((station, line), [])`. -/
def transfersLookup (station line : String) : List (String × String × ℕ) :=
  match TRANSFER_POINTS.find? (fun p => p.1.1 == station && p.1.2 == line) with
  | some p => p.2
  | none => []

/-- The travel time `_build_graph` assigns to the consecutive pair at
index `i` of a line with `n` stations: 2 minutes, or 3 at the periodic
express positions (`i > 0`, `i < n - 2`, `i % 3 == 0`). -/
def pairTravelTime (i n : ℕ) : ℕ :=
  if 0 < i ∧ i < n - 2 ∧ i % 3 = 0 then 3 else 2

/-- The consecutive pairs `(i, stations[i], stations[i+1])` of a
station list, as enumerated by `for i in range(len(stations) - 1)`. -/
def consecPairsAux (i : ℕ) : List String → List (ℕ × String × String)
  | a :: b :: rest => (i, a, b) :: consecPairsAux (i + 1) (b :: rest)
  | _ => []

/-- The line-topology entries `_build_graph` appends under the key
`(s, line)` while looping over `line`'s consecutive station pairs: for
each pair index `i`, the forward edge (if `stations[i] = s`) and then
the reverse edge (if `stations[i+1] = s`). -/
def lineAdj (line : String) (stations : List String) (s : String) :
    List (String × String × ℕ) :=
  (consecPairsAux 0 stations).flatMap fun p =>
    let t := pairTravelTime p.1 stations.length
    (if p.2.1 = s then [(p.2.2, line, t)] else []) ++
      (if p.2.2 = s then [(p.2.1, line, t)] else [])

/-- `SubwayGraph.get_adjacent_stations(station, line)`:
the dict entry built by `_build_graph` for the key `(station, line)`,
or `[]` when the key is absent. -/
def get_adjacent_stations (station line : String) : List (String × String × ℕ) :=
  lineAdj line (lineStations line) station ++ transfersLookup station line

/-- Insertion into a sorted list of strings (ascending code-point
order, as Python's `sorted` on `str`). -/
def insertSorted (x : String) : List String → List String
  | [] => [x]
  | y :: ys => if x < y then x :: y :: ys else y :: insertSorted x ys

/-- `sorted(...)` for a list of strings. -/
def sortStrings (l : List String) : List String := l.foldr insertSorted []

/-- `sorted(list(set(...)))` for a list of strings. -/
def sortedSet (l : List String) : List String := sortStrings l.eraseDups

/-- Whether `_build_graph`'s dict has the key `(station, line)`: the
line's consecutive-pair loop creates it when the station is on a line
with at least two stations, and the transfer loop creates it for every
declared `TRANSFER_POINTS` key. -/
def graphHasKey (station line : String) : Bool :=
  (2 ≤ (lineStations line).length && (lineStations line).contains station) ||
    TRANSFER_POINTS.any (fun p => p.1.1 == station && p.1.2 == line)

/-- `SubwayGraph.get_available_lines(station)`: the sorted set of line
codes `l` with `(station, l)` among the graph keys.  Candidate codes
are the `SUBWAY_LINES` codes and the `TRANSFER_POINTS` key lines (the
only lines a graph key can carry). -/
def get_available_lines (station : String) : List String :=
  sortedSet ((SUBWAY_LINES.map Prod.fst ++ TRANSFER_POINTS.map (fun p => p.1.2)).filter
    (fun l => graphHasKey station l))

/-- `SubwayGraph.validate_station`: membership in `all_stations`, the
sorted set of all stations occurring in `SUBWAY_LINES` (membership in
the sorted set equals membership in the concatenation). -/
def validate_station (station : String) : Bool :=
  (SUBWAY_LINES.flatMap (fun p => p.2)).contains station

/-! ## `dijkstra_router.py` — `DijkstraRouter`

The search state mirrors `_dijkstra`: a priority queue of
`(distance, station, line, transfers)` tuples (Python's `heapq` pops
the lexicographically smallest tuple), a `distances` dict, a
`previous` dict mapping a node to `((prev_station, prev_line),
travel_time, is_transfer)`, and a `visited` set (kept as a list in
insertion order).  The `while pq:` loop is given explicit fuel; the
number of loop iterations is bounded by the total number of pushes,
which is at most `1 + #nodes × max-degree` (well below the fuel used),
so on the actual graph the fuel never runs out and the embedding
agrees with the Python loop. -/

/-- A `(station, line)` search node. -/
abbrev Node := String × String

/-- The weight-function signature taken by `find_shortest_path`:
`(current_station, next_station, current_line, next_line,
travel_time, is_transfer) → cost`. -/
abbrev WeightFn := String → String → String → String → ℕ → Bool → ℚ

/-- A priority-queue entry `(distance, station, line, transfers)`. -/
abbrev PQEntry := ℚ × String × String × ℕ

/-- Python tuple `<` on priority-queue entries (distance first, then
station name, then line, then transfer count). -/
def pqLt (a b : PQEntry) : Bool :=
  if a.1 < b.1 then true
  else if b.1 < a.1 then false
  else if a.2.1 < b.2.1 then true
  else if b.2.1 < a.2.1 then false
  else if a.2.2.1 < b.2.2.1 then true
  else if b.2.2.1 < a.2.2.1 then false
  else a.2.2.2 < b.2.2.2

/-- The smallest entry of `best :: rest` under `pqLt` (the first one
among equal entries, which for fully equal tuples is immaterial). -/
def findMin : PQEntry → List PQEntry → PQEntry
  | best, [] => best
  | best, x :: xs => if pqLt x best then findMin x xs else findMin best xs

/-- `heapq.heappop`: remove and return the smallest entry. -/
def popMin : List PQEntry → Option (PQEntry × List PQEntry)
  | [] => none
  | x :: xs =>
    let m := findMin x xs
    some (m, (x :: xs).erase m)

/-- Association-list lookup for node-keyed dicts (the most recent
entry is consed to the front, so the first match is the current
value). -/
def lookupNode {α : Type} (m : List (Node × α)) (k : Node) : Option α :=
  (m.find? (fun p => p.1 == k)).map Prod.snd

/-- `distances` dict. -/
abbrev DistMap := List (Node × ℚ)

/-- `previous` dict: node ↦ `((prev_station, prev_line), travel_time,
is_transfer)`. -/
abbrev PrevMap := List (Node × (Node × ℕ × Bool))

/-- The mutable triple threaded through the edge-relaxation loop. -/
structure RelaxState where
  pq : List PQEntry
  dist : DistMap
  prev : PrevMap

/-- One iteration of `for next_station, next_line, travel_time in
adjacent:` — skip visited targets, compute the edge weight (the raw
travel time when no weight function is given), and on strict
improvement update `distances`/`previous` and push. -/
def relaxEdge (weight_func : Option WeightFn) (cs cl : String) (d : ℚ) (tr : ℕ)
    (vis : List Node) (st : RelaxState) (e : String × String × ℕ) : RelaxState :=
  let ns := e.1
  let nl := e.2.1
  let travel_time := e.2.2
  if (ns, nl) ∈ vis then st
  else
    let is_transfer : Bool := nl != cl
    let edge_weight : ℚ :=
      match weight_func with
      | some f => f cs ns cl nl travel_time is_transfer
      | none => travel_time
    let new_distance := d + edge_weight
    let new_transfers := tr + (if is_transfer then 1 else 0)
    let better : Bool :=
      match lookupNode st.dist (ns, nl) with
      | none => true
      | some old => decide (new_distance < old)
    if better then
      { pq := st.pq ++ [(new_distance, ns, nl, new_transfers)],
        dist := ((ns, nl), new_distance) :: st.dist,
        prev := ((ns, nl), ((cs, cl), travel_time, is_transfer)) :: st.prev }
    else st

/-- The fields of the dict `_dijkstra` returns that its callers
consume (`total_distance`, `end_state`, `transfers`, `previous`,
`visited`). -/
structure PathInfo where
  total_distance : ℚ
  end_state : Node
  transfers : ℕ
  previous : PrevMap
  visited : List Node

/-- The `while pq:` loop of `_dijkstra`: pop the smallest entry, skip
it if already visited, mark it visited, return on reaching the
destination station, drop it if over the transfer cap, otherwise relax
its outgoing edges. -/
def dijkstraLoop (weight_func : Option WeightFn) (end_station : String)
    (max_transfers : ℕ) :
    ℕ → List PQEntry → DistMap → PrevMap → List Node → Option PathInfo
  | 0, _, _, _, _ => none
  | fuel + 1, pq, dist, prev, vis =>
    match popMin pq with
    | none => none
    | some (entry, pq') =>
      let d := entry.1
      let cs := entry.2.1
      let cl := entry.2.2.1
      let tr := entry.2.2.2
      if (cs, cl) ∈ vis then
        dijkstraLoop weight_func end_station max_transfers fuel pq' dist prev vis
      else
        let vis' := vis ++ [(cs, cl)]
        if cs = end_station then some ⟨d, (cs, cl), tr, prev, vis'⟩
        else if max_transfers < tr then
          dijkstraLoop weight_func end_station max_transfers fuel pq' dist prev vis'
        else
          let st := (get_adjacent_stations cs cl).foldl
            (relaxEdge weight_func cs cl d tr vis') ⟨pq', dist, prev⟩
          dijkstraLoop weight_func end_station max_transfers fuel st.pq st.dist st.prev vis'

/-- Fuel amply covering every possible run on the static graph. -/
def dijkstraFuel : ℕ := 100000

/-- `DijkstraRouter._dijkstra(start_station, start_line, end_station,
weight_func, max_transfers)`. -/
def dijkstra (start_station start_line end_station : String)
    (weight_func : Option WeightFn) (max_transfers : ℕ) : Option PathInfo :=
  dijkstraLoop weight_func end_station max_transfers dijkstraFuel
    [(0, start_station, start_line, 0)] [((start_station, start_line), 0)] [] []

/-- The backtracking `while current in path_info["previous"]:` loop of
`_extract_route`: returns the first node without a predecessor entry
together with the traversed steps `(node, travel_time, is_transfer)`
in forward order.  Fuel `previous.length + 1` covers the walk, whose
length is at most the number of distinct `previous` keys. -/
def walkPrev (prev : PrevMap) : ℕ → Node → Node × List (Node × ℕ × Bool)
  | 0, cur => (cur, [])
  | fuel + 1, cur =>
    match lookupNode prev cur with
    | none => (cur, [])
    | some pe =>
      let r := walkPrev prev fuel pe.1
      (r.1, r.2 ++ [(cur, pe.2.1, pe.2.2)])

/-- The `unique_lines` dedup loop of `_extract_route`: keep a line
only when it differs from the previously kept one. -/
def uniqueLines (lines : List String) : List String :=
  lines.foldl
    (fun acc line => if acc = [] ∨ acc.getLast? ≠ some line then acc ++ [line] else acc) []

/-- A route segment: a ride along one line or a transfer
(`{"type": "transfer", ...}`). -/
inductive Segment where
  | ride (line from_station to_station : String) (stops : ℕ) (time_minutes : ℕ)
  | xfer (station from_line to_line : String) (time_minutes : ℕ)
deriving DecidableEq, Repr

/-- The segment-building loop of `_extract_route`: group maximal runs
of same-line stations into ride segments (2 minutes per stop, an
estimate independent of the true edge times), with a fixed 2-minute
transfer segment at each line change. -/
def segLoop (segSts : List String) (segLine : String) :
    List (String × String) → List Segment → List Segment
  | [], acc =>
    if segSts.isEmpty then acc
    else acc ++ [Segment.ride segLine (segSts.headD "") (segSts.getLastD "")
      (segSts.length - 1) (2 * (segSts.length - 1))]
  | (s, l) :: rest, acc =>
    if l ≠ segLine then
      segLoop [s] l rest
        (acc ++ [Segment.ride segLine (segSts.headD "") (segSts.getLastD "")
            (segSts.length - 1) (2 * (segSts.length - 1)),
          Segment.xfer s segLine l 2])
    else segLoop (segSts ++ [s]) segLine rest acc

/-- Segments of a route given its full station and line sequences. -/
def buildSegments : List String → List String → List Segment
  | s0 :: srest, l0 :: lrest => segLoop [s0] l0 (srest.zip lrest) []
  | _, _ => []

/-- The route dict produced by `find_shortest_path` /
`_extract_route`, plus the `RouteOptimizer`'s `name` tag.

The two final fields `start_node` and `steps` are model-only ghost
data (not part of the Python dict): they record the traversed search
nodes and per-edge `(travel_time, is_transfer)` facts, so that claims
about re-scoring a returned route's edges under a weight function can
be stated.  They are determined by the same backtracking walk the
source performs. -/
structure Route where
  name : String
  stations : List String
  lines : List String
  segments : List Segment
  total_time_minutes : ℕ
  total_transfers : ℕ
  total_stops : ℕ
  start_node : Node
  steps : List (Node × ℕ × Bool)
deriving DecidableEq, Repr

/-- `DijkstraRouter._extract_route(path_info)`. -/
def extract_route (info : PathInfo) : Route :=
  let w := walkPrev info.previous (info.previous.length + 1) info.end_state
  let stations := w.1.1 :: w.2.map (fun st => st.1.1)
  let lines := w.1.2 :: w.2.map (fun st => st.1.2)
  { name := "",
    stations := stations,
    lines := uniqueLines lines,
    segments := buildSegments stations lines,
    total_time_minutes := (w.2.map (fun st => st.2.1)).sum,
    total_transfers := (w.2.filter (fun st => st.2.2)).length,
    total_stops := stations.length,
    start_node := w.1,
    steps := w.2 }

/-- The `origin == destination` route returned by
`find_shortest_path` (ghost fields: the walk never ran, so no steps
and a lineless start node). -/
def trivialRoute (station : String) : Route :=
  { name := "",
    stations := [station],
    lines := [],
    segments := [],
    total_time_minutes := 0,
    total_transfers := 0,
    total_stops := 1,
    start_node := (station, ""),
    steps := [] }

/-- The body of the `for start_line in start_lines:` loop: keep the
accumulated best path unless this line's search strictly improves
`total_distance`. -/
def pickBest (start_station end_station : String) (weight_func : Option WeightFn)
    (max_transfers : ℕ) (acc : Option PathInfo) (start_line : String) :
    Option PathInfo :=
  match dijkstra start_station start_line end_station weight_func max_transfers with
  | none => acc
  | some p =>
    match acc with
    | none => some p
    | some b => if p.total_distance < b.total_distance then some p else some b

/-- `DijkstraRouter.find_shortest_path(start_station, end_station,
weight_func, max_transfers)`: validate both stations, short-circuit
equal endpoints, then run one Dijkstra per line available at the
origin and keep the strictly best `total_distance`. -/
def find_shortest_path (start_station end_station : String)
    (weight_func : Option WeightFn) (max_transfers : ℕ) : Option Route :=
  if validate_station start_station = false then none
  else if validate_station end_station = false then none
  else if start_station = end_station then some (trivialRoute start_station)
  else
    let start_lines := get_available_lines start_station
    if start_lines.isEmpty then none
    else
      match start_lines.foldl
          (pickBest start_station end_station weight_func max_transfers) none with
      | none => none
      | some p => some (extract_route p)

/-! ## `lambda_deploy/route_optimizer.py` — `RouteOptimizer` -/

/-- `self.crime_data.get(next_station, 5)`. -/
def crimeAt (crime_data : NumMap) (station : String) : ℚ :=
  lookupD crime_data station 5

/-- `weight_safe` of `_generate_safe_route`:
`travel_time * (1 + min(crimes, 20) / 10)`, plus 5 on a transfer. -/
def weight_safe (crime_data : NumMap) : WeightFn :=
  fun _current next_station _cl _nl travel_time is_transfer =>
    let crimes := crimeAt crime_data next_station
    let crime_multiplier := 1 + min crimes 20 / 10
    let weight := (travel_time : ℚ) * crime_multiplier
    if is_transfer then weight + 5 else weight

/-- `weight_fast` of `_generate_fast_route`: `travel_time`, plus 8 on
a transfer. -/
def weight_fast : WeightFn :=
  fun _current _next _cl _nl travel_time is_transfer =>
    let weight := (travel_time : ℚ)
    if is_transfer then weight + 8 else weight

/-- `weight_balanced` of `_generate_balanced_route`:
`travel_time * 0.5 + (min(crimes, 20) * 0.5) * 0.35 +
(6 if transfer else 0) * 0.15`. -/
def weight_balanced (crime_data : NumMap) : WeightFn :=
  fun _current next_station _cl _nl travel_time is_transfer =>
    let crimes := crimeAt crime_data next_station
    let crime_cost := min crimes 20 * 0.5
    let transfer_cost : ℚ := if is_transfer then 6 else 0
    (travel_time : ℚ) * 0.5 + crime_cost * 0.35 + transfer_cost * 0.15

/-- Attach the `route["name"] = ...` tag. -/
def setName (n : String) (r : Route) : Route :=
  { r with name := n }

/-- `RouteOptimizer.generate_routes(origin, destination)` with crime
map `crime_data`: try the three named searches independently (each a
`find_shortest_path` with the default `max_transfers = 5`), append
whichever succeeded in order Safe, Fast, Balanced, and return `None`
only when the list stays empty.  The unused `line_performance`
parameter of the source is omitted. -/
def generate_routes (crime_data : NumMap) (origin destination : String) :
    Option (List Route) :=
  let safe_route := (find_shortest_path origin destination
    (some (weight_safe crime_data)) 5).map (setName "SafeRoute")
  let fast_route := (find_shortest_path origin destination
    (some weight_fast) 5).map (setName "FastRoute")
  let balanced_route := (find_shortest_path origin destination
    (some (weight_balanced crime_data)) 5).map (setName "BalancedRoute")
  let routes := safe_route.toList ++ fast_route.toList ++ balanced_route.toList
  if routes.isEmpty then none else some routes

/-- The cost of a returned route's traversed edges under a weight
function: starting at the route's start node, sum the weights of each
recorded step (this re-scores the actual edges the search settled,
using each step's raw travel time and transfer flag). -/
def routeCost (wf : WeightFn) (r : Route) : ℚ :=
  (r.start_node, (0 : ℚ)) |> fun init =>
    (r.steps.foldl
      (fun (acc : Node × ℚ) st =>
        (st.1, acc.2 + wf acc.1.1 st.1.1 acc.1.2 st.1.2 st.2.1 st.2.2))
      init).2

/-- `a` is immediately followed by `b` somewhere in `lst`. -/
def consecutiveIn (lst : List String) (a b : String) : Prop :=
  ∃ i : ℕ, lst[i]? = some a ∧ lst[i + 1]? = some b

theorem consecPairsAux_mem {lst : List String} :
    ∀ {j i : ℕ} {a b : String}, (i, a, b) ∈ consecPairsAux j lst →
      j ≤ i ∧ lst[i - j]? = some a ∧ lst[i - j + 1]? = some b := by
  induction lst with
  | nil => intro j i a b h; simp [consecPairsAux] at h
  | cons hd tl ih =>
    intro j i a b h
    cases tl with
    | nil => simp [consecPairsAux] at h
    | cons hd2 rest =>
      rw [consecPairsAux, List.mem_cons] at h
      rcases h with h | h
      · simp only [Prod.mk.injEq] at h
        obtain ⟨rfl, rfl, rfl⟩ := h
        simp
      · obtain ⟨hj, h1, h2⟩ := ih h
        refine ⟨by omega, ?_, ?_⟩
        · have : i - j = (i - (j + 1)) + 1 := by omega
          rw [this]
          simpa using h1
        · have : i - j + 1 = (i - (j + 1) + 1) + 1 := by omega
          rw [this]
          simpa using h2

/-! ## Basic bounds for the score pipeline -/

theorem le_pyRound {x : ℚ} {a : ℤ} (ha : (a : ℚ) ≤ x) : a ≤ pyRound x := by
  have hf : a ≤ ⌊x⌋ := Int.le_floor.mpr ha
  unfold pyRound
  split_ifs <;> omega

theorem pyRound_le {x : ℚ} {b : ℤ} (hb : x ≤ (b : ℚ)) : pyRound x ≤ b := by
  have hfb : ⌊x⌋ ≤ b := by
    have := Int.floor_le_floor hb
    simpa using this
  have hfx : (⌊x⌋ : ℚ) ≤ x := Int.floor_le x
  unfold pyRound
  split_ifs with h1 h2 h3
  · exact hfb
  · have hx : (⌊x⌋ : ℚ) < x := by linarith
    have : (⌊x⌋ : ℚ) < (b : ℚ) := lt_of_lt_of_le hx hb
    have := Int.cast_lt.mp this
    omega
  · exact hfb
  · have hx : (⌊x⌋ : ℚ) < x := by push_neg at h1; linarith
    have : (⌊x⌋ : ℚ) < (b : ℚ) := lt_of_lt_of_le hx hb
    have := Int.cast_lt.mp this
    omega

theorem tierScore_bounds {p : ℚ} (h0 : 0 ≤ p) (h1 : p ≤ 100) :
    2 ≤ tierScore p ∧ tierScore p ≤ 10 := by
  unfold tierScore
  split_ifs <;> constructor <;> linarith

theorem score_shape {percentile : ℚ} (h0 : 0 ≤ percentile) (h1 : percentile ≤ 100) :
    2 ≤ pyRound (tierScore percentile) ∧ pyRound (tierScore percentile) ≤ 10 := by
  obtain ⟨hl, hr⟩ := tierScore_bounds h0 h1
  refine ⟨le_pyRound ?_, pyRound_le ?_⟩
  · push_cast
    linarith
  · push_cast
    linarith

theorem sub_count_percentile_bounds (l : List ℚ) (hl : ¬ l.isEmpty) (P : ℚ → Bool) :
    0 ≤ ((l.length : ℚ) - (l.filter P).length) / l.length * 100 ∧
      ((l.length : ℚ) - (l.filter P).length) / l.length * 100 ≤ 100 := by
  have hn : 0 < (l.length : ℚ) := by
    have : l ≠ [] := by simpa [List.isEmpty_iff] using hl
    have := List.length_pos.mpr this
    exact_mod_cast this
  have hc : ((l.filter P).length : ℚ) ≤ (l.length : ℚ) := by
    exact_mod_cast List.length_filter_le P l
  have hc0 : (0 : ℚ) ≤ ((l.filter P).length : ℚ) := by positivity
  constructor
  · apply mul_nonneg _ (by norm_num)
    apply div_nonneg _ (le_of_lt hn)
    linarith
  · rw [div_mul_eq_mul_div, div_le_iff₀ hn]
    nlinarith

theorem count_percentile_bounds (l : List ℚ) (hl : ¬ l.isEmpty) (P : ℚ → Bool) :
    0 ≤ ((l.filter P).length : ℚ) / l.length * 100 ∧
      ((l.filter P).length : ℚ) / l.length * 100 ≤ 100 := by
  have hn : 0 < (l.length : ℚ) := by
    have : l ≠ [] := by simpa [List.isEmpty_iff] using hl
    have := List.length_pos.mpr this
    exact_mod_cast this
  have hc : ((l.filter P).length : ℚ) ≤ (l.length : ℚ) := by
    exact_mod_cast List.length_filter_le P l
  have hc0 : (0 : ℚ) ≤ ((l.filter P).length : ℚ) := by positivity
  constructor
  · apply mul_nonneg _ (by norm_num)
    exact div_nonneg hc0 (le_of_lt hn)
  · rw [div_mul_eq_mul_div, div_le_iff₀ hn]
    nlinarith

/-- C10 helper: bounds of `calculate_safety_score` on non-empty input. -/
theorem calculate_safety_score_bounds (crime_data : NumMap) (stations : List String)
    (h : stations ≠ []) :
    2 ≤ calculate_safety_score crime_data stations ∧
      calculate_safety_score crime_data stations ≤ 10 := by
  have hne : stations.isEmpty = false := by simpa [List.isEmpty_iff] using h
  simp only [calculate_safety_score, hne, Bool.false_eq_true, if_false]
  apply score_shape
  case h0 =>
    split_ifs with h1 h2
    · norm_num
    · norm_num
    · exact (sub_count_percentile_bounds _ (by simpa using h1) _).1
  case h1 =>
    split_ifs with h1 h2
    · norm_num
    · norm_num
    · exact (sub_count_percentile_bounds _ (by simpa using h1) _).2

/-- C10 helper: bounds of `calculate_reliability_score` on non-empty input. -/
theorem calculate_reliability_score_bounds (line_performance : NumMap) (lines : List String)
    (h : lines ≠ []) :
    2 ≤ calculate_reliability_score line_performance lines ∧
      calculate_reliability_score line_performance lines ≤ 10 := by
  have hne : lines.isEmpty = false := by simpa [List.isEmpty_iff] using h
  simp only [calculate_reliability_score, hne, Bool.false_eq_true, if_false]
  apply score_shape
  case h0 =>
    split_ifs with h1 h2
    · norm_num
    · norm_num
    · exact (count_percentile_bounds _ (by simpa using h1) _).1
  case h1 =>
    split_ifs with h1 h2
    · norm_num
    · norm_num
    · exact (count_percentile_bounds _ (by simpa using h1) _).2

/-! ## Claim theorems for the scoring layer -/

/-- C1 (code bug): on the crime map
`{South Ferry: 0, Rector Street: 10, Cortlandt Street: 10}` and the
one-station route `[South Ferry]` (route average crime 0), the spec's
percentile — the fraction of known crime values `≥` the average, × 100 —
is `100`, which the five-tier map sends to score `10`; but
`calculate_safety_score` computes the percentile with the opposite
orientation (fraction of known values strictly below the average),
obtaining `0`, and returns score `2`.  The code contradicts its own
docstring ("Higher score = safer route") and inline comment ("what % of
stations have more crime than this route?"). -/
theorem c1_safety_percentile_direction :
    calculate_safety_score
        [("South Ferry", 0), ("Rector Street", 10), ("Cortlandt Street", 10)]
        ["South Ferry"] = 2 ∧
      code_safety_percentile
        [("South Ferry", 0), ("Rector Street", 10), ("Cortlandt Street", 10)]
        ["South Ferry"] = 0 ∧
      spec_safety_percentile
        [("South Ferry", 0), ("Rector Street", 10), ("Cortlandt Street", 10)]
        ["South Ferry"] = 100 ∧
      pyRound (tierScore 100) = 10 := by
  refine ⟨?_, ?_, ?_, ?_⟩ <;> decide

/-- C3 (counterexample): the claim says one transfer scores 9
(8.5 rounded up), but `calculate_efficiency_score` uses Python's
`round`, which rounds the half 8.5 to the even integer 8. -/
theorem c3_one_transfer_counterexample :
    calculate_efficiency_score 1 0 = 8 ∧ calculate_efficiency_score 1 0 ≠ 9 := by
  constructor <;> decide

/-- C3 (amended): for every transfer count `n` and travel time `t`,
`calculate_efficiency_score n t` equals the Python rounding (halves to
even) of `max(0, min(10, 10 - 1.5*n))`, never consults `t`, and takes
the values 10, 8, 7, 6, 4 at 0, 1, 2, 3, 4 transfers. -/
theorem c3_efficiency_formula :
    (∀ (n : ℕ) (t : ℤ),
        calculate_efficiency_score n t =
          pyRound (max 0 (min 10 (10 - (1.5 : ℚ) * n)))) ∧
      (∀ (n : ℕ) (t t' : ℤ),
        calculate_efficiency_score n t = calculate_efficiency_score n t') ∧
      (∀ t : ℤ, calculate_efficiency_score 0 t = 10 ∧
        calculate_efficiency_score 1 t = 8 ∧
        calculate_efficiency_score 2 t = 7 ∧
        calculate_efficiency_score 3 t = 6 ∧
        calculate_efficiency_score 4 t = 4) := by
  have hmain : ∀ (n : ℕ) (t : ℤ),
      calculate_efficiency_score n t =
        pyRound (max 0 (min 10 (10 - (1.5 : ℚ) * n))) := by
    intro n t
    simp only [calculate_efficiency_score]
    congr 1
    have hcomm : (1.5 : ℚ) * (n : ℚ) = (n : ℚ) * 1.5 := mul_comm _ _
    rcases le_total ((n : ℚ) * 1.5) 10 with h | h
    · rw [min_eq_left h, hcomm]
    · rw [min_eq_right h,
        min_eq_right (by linarith : (10 : ℚ) - (1.5 : ℚ) * (n : ℚ) ≤ 10),
        max_eq_left (by linarith : (10 : ℚ) - (1.5 : ℚ) * (n : ℚ) ≤ 0)]
      norm_num
  exact ⟨hmain, fun n t t' => (hmain n t).trans (hmain n t').symm,
    fun t => ⟨by rw [hmain]; decide, by rw [hmain]; decide, by rw [hmain]; decide,
      by rw [hmain]; decide, by rw [hmain]; decide⟩⟩

/-- C10: `calculate_safety_score` returns an integer in `[2, 10]` for
every non-empty station list and exactly 5 for the empty list, and
`calculate_reliability_score` satisfies the same bounds on line lists —
for arbitrary crime and performance maps. -/
theorem c10_score_bounds :
    (∀ (crime_data : NumMap) (stations : List String), stations ≠ [] →
        2 ≤ calculate_safety_score crime_data stations ∧
          calculate_safety_score crime_data stations ≤ 10) ∧
      (∀ crime_data : NumMap, calculate_safety_score crime_data [] = 5) ∧
      (∀ (line_performance : NumMap) (lines : List String), lines ≠ [] →
        2 ≤ calculate_reliability_score line_performance lines ∧
          calculate_reliability_score line_performance lines ≤ 10) ∧
      (∀ line_performance : NumMap, calculate_reliability_score line_performance [] = 5) :=
  ⟨calculate_safety_score_bounds, fun _ => rfl,
    calculate_reliability_score_bounds, fun _ => rfl⟩

/-- Witness for C10 at a concrete route and crime/performance data. -/
theorem c10_score_bounds_witness :
    (2 ≤ calculate_safety_score [("South Ferry", 3)] ["South Ferry", "Rector Street"] ∧
        calculate_safety_score [("South Ferry", 3)] ["South Ferry", "Rector Street"] ≤ 10) ∧
      (2 ≤ calculate_reliability_score [("1", 88)] ["1"] ∧
        calculate_reliability_score [("1", 88)] ["1"] ≤ 10) :=
  ⟨c10_score_bounds.1 [("South Ferry", 3)] ["South Ferry", "Rector Street"] (by decide),
    c10_score_bounds.2.2.1 [("1", 88)] ["1"] (by decide)⟩

/-! ## Claim theorems for the graph topology -/

/-- C4 (counterexample): the built graph's adjacency for the node
`(42nd Street-Times Square, line 1)` contains the declared transfer
edge to `(Grand Central-42nd Street, line 4)` — a transfer edge whose
endpoints are at *different* stations, contradicting the claim that
every outgoing edge goes to the previous/next station of the same line
or to a transfer target located at the same station. -/
theorem c4_cross_station_transfer_counterexample :
    ("Grand Central-42nd Street", "4", 3) ∈
        get_adjacent_stations "42nd Street-Times Square" "1" ∧
      ("Grand Central-42nd Street", "4", 3) ∈
        transfersLookup "42nd Street-Times Square" "1" ∧
      "42nd Street-Times Square" ≠ "Grand Central-42nd Street" ∧
      "Grand Central-42nd Street" ∉ lineStations "1" := by
  refine ⟨by decide, by decide, by decide, by decide⟩

/-- C4 (amended): every outgoing edge of a node `(station, line)` in
the built graph goes either to the previous or next station of that
line's ordered station list (on the same line), or to an explicitly
declared `TRANSFER_POINTS` target of that node — which is *not* always
at the same station. -/
theorem c4_adjacency_shape :
    ∀ (s l ns nl : String) (t : ℕ),
      (ns, nl, t) ∈ get_adjacent_stations s l →
        (nl = l ∧ (consecutiveIn (lineStations l) s ns ∨
            consecutiveIn (lineStations l) ns s)) ∨
          (ns, nl, t) ∈ transfersLookup s l := by
  intro s l ns nl t h
  rcases List.mem_append.mp h with h | h
  · left
    unfold lineAdj at h
    rw [List.mem_flatMap] at h
    obtain ⟨p, hp, hmem⟩ := h
    obtain ⟨i, a, b⟩ := p
    obtain ⟨-, h1, h2⟩ := consecPairsAux_mem hp
    simp only [Nat.sub_zero] at h1 h2
    rcases List.mem_append.mp hmem with hm | hm
    · split_ifs at hm with he
      · simp only [List.mem_singleton, Prod.mk.injEq] at hm
        obtain ⟨rfl, rfl, -⟩ := hm
        subst he
        exact ⟨rfl, Or.inl ⟨i, h1, h2⟩⟩
      · simp at hm
    · split_ifs at hm with he
      · simp only [List.mem_singleton, Prod.mk.injEq] at hm
        obtain ⟨rfl, rfl, -⟩ := hm
        subst he
        exact ⟨rfl, Or.inr ⟨i, h1, h2⟩⟩
      · simp at hm
  · exact Or.inr h

/-- Witness for C4 (amended) at a concrete line edge of line 1. -/
theorem c4_adjacency_shape_witness :
    ("1" = "1" ∧ (consecutiveIn (lineStations "1") "South Ferry" "Rector Street" ∨
        consecutiveIn (lineStations "1") "Rector Street" "South Ferry")) ∨
      ("Rector Street", "1", 2) ∈ transfersLookup "South Ferry" "1" :=
  c4_adjacency_shape "South Ferry" "1" "Rector Street" "1" 2 (by decide)

/-! ## Structural facts about the search (for C9)

The backtracking in `_extract_route` is meaningful only because the
search loop maintains an invariant: every `previous` entry points to
an already-settled parent, settled strictly earlier, and the start
node (settled first) never receives an entry.  The lemmas below
establish that invariant and derive the shape of every successfully
extracted route. -/

/-- The `(station, line)` nodes represented in a priority queue. -/
def pqNodes (pq : List PQEntry) : List Node :=
  pq.map (fun en => (en.2.1, en.2.2.1))

theorem lookupNode_cons {α : Type} (k : Node) (v : α) (m : List (Node × α)) (x : Node) :
    lookupNode ((k, v) :: m) x = if k = x then some v else lookupNode m x := by
  by_cases h : k = x
  · simp [lookupNode, List.find?_cons_of_pos, h]
  · simp only [lookupNode, List.find?]
    have : ((k, v).1 == x) = false := by simpa using h
    rw [this]
    simp [h]

theorem findMin_mem (b : PQEntry) (l : List PQEntry) :
    findMin b l = b ∨ findMin b l ∈ l := by
  induction l generalizing b with
  | nil => simp [findMin]
  | cons x xs ih =>
    rw [findMin]
    split_ifs
    · rcases ih x with h | h
      · right; simp [h]
      · right; exact List.mem_cons_of_mem _ h
    · rcases ih b with h | h
      · exact Or.inl h
      · right; exact List.mem_cons_of_mem _ h

theorem popMin_eq {pq : List PQEntry} {en : PQEntry} {rest : List PQEntry}
    (h : popMin pq = some (en, rest)) : en ∈ pq ∧ rest = pq.erase en := by
  cases pq with
  | nil => simp [popMin] at h
  | cons x xs =>
    simp only [popMin, Option.some.injEq, Prod.mk.injEq] at h
    obtain ⟨h1, h2⟩ := h
    subst h1
    refine ⟨?_, h2.symm⟩
    rcases findMin_mem x xs with hm | hm
    · rw [hm]; exact List.mem_cons_self x xs
    · exact List.mem_cons_of_mem _ hm

theorem pqNodes_erase_subset (pq : List PQEntry) (en : PQEntry) :
    pqNodes (pq.erase en) ⊆ pqNodes pq :=
  List.Sublist.subset (List.Sublist.map _ (List.erase_sublist _ _))

theorem pqNodes_mem_of_entry {pq : List PQEntry} {en : PQEntry} (h : en ∈ pq) :
    (en.2.1, en.2.2.1) ∈ pqNodes pq :=
  List.mem_map_of_mem _ h

section RelaxLemmas

variable (wf : Option WeightFn) (cs cl : String) (d : ℚ) (tr : ℕ) (vis : List Node)

/-- One relaxation step either leaves the state unchanged (visited
target or no strict improvement) or pushes the target node and
prepends its `distances`/`previous` entries, the new parent being the
node currently being expanded. -/
theorem relaxEdge_cases (st : RelaxState) (e : String × String × ℕ) :
    relaxEdge wf cs cl d tr vis st e = st ∨
      ((e.1, e.2.1) ∉ vis ∧ ∃ (q : ℚ) (k : ℕ),
        relaxEdge wf cs cl d tr vis st e =
          { pq := st.pq ++ [(q, e.1, e.2.1, k)],
            dist := ((e.1, e.2.1), q) :: st.dist,
            prev := ((e.1, e.2.1), ((cs, cl), e.2.2, e.2.1 != cl)) :: st.prev }) := by
  by_cases h1 : (e.1, e.2.1) ∈ vis
  · left
    simp [relaxEdge, h1]
  · simp only [relaxEdge]
    rw [if_neg h1]
    split_ifs
    all_goals first
      | exact Or.inl rfl
      | exact Or.inr ⟨h1, _, _, rfl⟩

/-- Relaxation never touches the `previous` entry of a visited node
(the `if (next_station, next_line) in visited: continue` guard). -/
theorem relaxEdge_prev_visited (st : RelaxState) (e : String × String × ℕ) {x : Node}
    (hx : x ∈ vis) :
    lookupNode (relaxEdge wf cs cl d tr vis st e).prev x = lookupNode st.prev x := by
  rcases relaxEdge_cases wf cs cl d tr vis st e with h | ⟨hnv, q, k, h⟩
  · rw [h]
  · rw [h]
    simp only [lookupNode_cons]
    rw [if_neg]
    intro hk
    exact hnv (hk ▸ hx)

/-- Relaxation never deletes a `previous` entry. -/
theorem relaxEdge_prev_mono (st : RelaxState) (e : String × String × ℕ) {x : Node}
    (hx : (lookupNode st.prev x).isSome) :
    (lookupNode (relaxEdge wf cs cl d tr vis st e).prev x).isSome := by
  rcases relaxEdge_cases wf cs cl d tr vis st e with h | ⟨hnv, q, k, h⟩
  · rw [h]; exact hx
  · rw [h]
    simp only [lookupNode_cons]
    split_ifs with hk
    · rfl
    · exact hx

/-- Any `previous` entry after one relaxation step is either an old
entry or points to the node currently being expanded. -/
theorem relaxEdge_prev_parent (st : RelaxState) (e : String × String × ℕ) {x : Node}
    {v : Node × ℕ × Bool}
    (h : lookupNode (relaxEdge wf cs cl d tr vis st e).prev x = some v) :
    lookupNode st.prev x = some v ∨ v.1 = (cs, cl) := by
  rcases relaxEdge_cases wf cs cl d tr vis st e with hc | ⟨hnv, q, k, hc⟩
  · rw [hc] at h; exact Or.inl h
  · rw [hc] at h
    simp only [lookupNode_cons] at h
    split_ifs at h with hk
    · right
      rw [← Option.some_inj.mp h]
    · exact Or.inl h

/-- Any node in the queue after one relaxation step was already in the
queue or has a `previous` entry afterwards. -/
theorem relaxEdge_pq (st : RelaxState) (e : String × String × ℕ) {n : Node}
    (h : n ∈ pqNodes (relaxEdge wf cs cl d tr vis st e).pq) :
    n ∈ pqNodes st.pq ∨ (lookupNode (relaxEdge wf cs cl d tr vis st e).prev n).isSome := by
  rcases relaxEdge_cases wf cs cl d tr vis st e with hc | ⟨hnv, q, k, hc⟩
  · rw [hc] at h ⊢; exact Or.inl h
  · rw [hc] at h ⊢
    simp only [pqNodes, List.map_append] at h
    rcases List.mem_append.mp h with hn | hn
    · exact Or.inl hn
    · right
      simp only [List.map_cons, List.map_nil, List.mem_singleton] at hn
      simp only [lookupNode_cons]
      rw [if_pos hn.symm]
      rfl

/-- The whole relaxation fold keeps the `previous` entries of visited
nodes. -/
theorem foldRelax_prev_visited (es : List (String × String × ℕ)) (st : RelaxState)
    {x : Node} (hx : x ∈ vis) :
    lookupNode ((es.foldl (relaxEdge wf cs cl d tr vis) st).prev) x =
      lookupNode st.prev x := by
  induction es generalizing st with
  | nil => rfl
  | cons e rest ih =>
    rw [List.foldl_cons, ih, relaxEdge_prev_visited]
    exact hx

/-- The whole relaxation fold never deletes a `previous` entry. -/
theorem foldRelax_prev_mono (es : List (String × String × ℕ)) (st : RelaxState)
    {x : Node} (hx : (lookupNode st.prev x).isSome) :
    (lookupNode ((es.foldl (relaxEdge wf cs cl d tr vis) st).prev) x).isSome := by
  induction es generalizing st with
  | nil => exact hx
  | cons e rest ih =>
    rw [List.foldl_cons]
    exact ih _ (relaxEdge_prev_mono wf cs cl d tr vis st e hx)

/-- Any `previous` entry after the whole relaxation fold is an old
entry or points to the expanded node. -/
theorem foldRelax_prev_parent (es : List (String × String × ℕ)) (st : RelaxState)
    {x : Node} {v : Node × ℕ × Bool}
    (h : lookupNode ((es.foldl (relaxEdge wf cs cl d tr vis) st).prev) x = some v) :
    lookupNode st.prev x = some v ∨ v.1 = (cs, cl) := by
  induction es generalizing st with
  | nil => exact Or.inl h
  | cons e rest ih =>
    rw [List.foldl_cons] at h
    rcases ih _ h with h2 | h2
    · exact relaxEdge_prev_parent wf cs cl d tr vis st e h2
    · exact Or.inr h2

/-- Any node in the queue after the whole relaxation fold was already
in the queue or has a `previous` entry afterwards. -/
theorem foldRelax_pq (es : List (String × String × ℕ)) (st : RelaxState) {n : Node}
    (h : n ∈ pqNodes ((es.foldl (relaxEdge wf cs cl d tr vis) st).pq)) :
    n ∈ pqNodes st.pq ∨
      (lookupNode ((es.foldl (relaxEdge wf cs cl d tr vis) st).prev) n).isSome := by
  induction es generalizing st with
  | nil => exact Or.inl h
  | cons e rest ih =>
    rw [List.foldl_cons] at h ⊢
    rcases ih _ h with h2 | h2
    · rcases relaxEdge_pq wf cs cl d tr vis st e h2 with h3 | h3
      · exact Or.inl h3
      · exact Or.inr (foldRelax_prev_mono wf cs cl d tr vis rest _ h3)
    · exact Or.inr h2

end RelaxLemmas

/-- Position of a node in the settlement order (first occurrence). -/
def rankOf : List Node → Node → ℕ
  | [], _ => 0
  | x :: xs, v => if x = v then 0 else rankOf xs v + 1

theorem rankOf_append_of_mem {v : Node} : ∀ {l₁ : List Node} (l₂ : List Node),
    v ∈ l₁ → rankOf (l₁ ++ l₂) v = rankOf l₁ v := by
  intro l₁
  induction l₁ with
  | nil => intro l₂ h; exact absurd h (List.not_mem_nil _)
  | cons x xs ih =>
    intro l₂ h
    rw [List.cons_append, rankOf, rankOf]
    split_ifs with hx
    · rfl
    · rw [ih l₂]
      rcases List.mem_cons.mp h with h | h
      · exact absurd h.symm hx
      · exact h

theorem rankOf_append_self_of_not_mem {v : Node} : ∀ {l₁ : List Node},
    v ∉ l₁ → rankOf (l₁ ++ [v]) v = l₁.length := by
  intro l₁
  induction l₁ with
  | nil => intro _; simp [rankOf]
  | cons x xs ih =>
    intro h
    rw [List.cons_append, rankOf, if_neg, ih (fun hm => h (List.mem_cons_of_mem _ hm))]
    · rfl
    · intro hx
      exact h (hx ▸ List.mem_cons_self x xs)

theorem rankOf_lt_length {v : Node} : ∀ {l : List Node}, v ∈ l → rankOf l v < l.length := by
  intro l
  induction l with
  | nil => intro h; exact absurd h (List.not_mem_nil _)
  | cons x xs ih =>
    intro h
    rw [rankOf]
    split_ifs with hx
    · simp
    · rcases List.mem_cons.mp h with h | h
      · exact absurd h.symm hx
      · have := ih h
        simpa using Nat.succ_lt_succ this

/-- The invariant of `dijkstraLoop`: the start node never acquires a
predecessor (edges into visited nodes are not relaxed and the start is
settled first), every queued node is the start or has a predecessor
entry, every predecessor entry points to an already-settled node,
settled strictly earlier than its child. -/
structure LoopInv (start : Node) (pq : List PQEntry) (prev : PrevMap)
    (vis : List Node) : Prop where
  start_not_dom : lookupNode prev start = none
  pq_dom : ∀ n ∈ pqNodes pq, n = start ∨ (lookupNode prev n).isSome
  parent_vis : ∀ x v, lookupNode prev x = some v → v.1 ∈ vis
  nodup : vis.Nodup
  rank : ∀ v ∈ vis, v = start ∨ ∃ e, lookupNode prev v = some e ∧
    rankOf vis e.1 < rankOf vis v
  start_vis : vis ≠ [] → start ∈ vis
  base : vis = [] → prev = [] ∧ ∀ n ∈ pqNodes pq, n = start

/-- What holds of a successful `_dijkstra` result: the settled end
state is at the destination station, and the predecessor structure is
well-founded back to the start node. -/
structure LoopPost (start : Node) (end_station : String) (info : PathInfo) : Prop where
  end_st : info.end_state.1 = end_station
  end_vis : info.end_state ∈ info.visited
  start_not_dom : lookupNode info.previous start = none
  parent_vis : ∀ x v, lookupNode info.previous x = some v → v.1 ∈ info.visited
  nodup : info.visited.Nodup
  rank : ∀ v ∈ info.visited, v = start ∨ ∃ e, lookupNode info.previous v = some e ∧
    rankOf info.visited e.1 < rankOf info.visited v
  start_vis : start ∈ info.visited

theorem LoopInv.start_mem_extend {start : Node} {pq : List PQEntry} {prev : PrevMap}
    {vis : List Node} (hinv : LoopInv start pq prev vis) {cn : Node}
    (hpq : cn ∈ pqNodes pq) : start ∈ vis ++ [cn] := by
  by_cases h : vis = []
  · have hcs := (hinv.base h).2 cn hpq
    subst hcs
    exact List.mem_append_right _ (List.mem_singleton_self _)
  · exact List.mem_append_left _ (hinv.start_vis h)

/-- Appending the freshly settled node to `visited` (with the queue
shrunk to any sub-collection) preserves the invariant. -/
theorem LoopInv.extend_vis {start : Node} {pq : List PQEntry} {prev : PrevMap}
    {vis : List Node} (hinv : LoopInv start pq prev vis) {cn : Node}
    (hpq : cn ∈ pqNodes pq) (hnv : cn ∉ vis) {pq₂ : List PQEntry}
    (hsub : pqNodes pq₂ ⊆ pqNodes pq) :
    LoopInv start pq₂ prev (vis ++ [cn]) where
  start_not_dom := hinv.start_not_dom
  pq_dom := fun n hn => hinv.pq_dom n (hsub hn)
  parent_vis := fun x v hxv => List.mem_append_left _ (hinv.parent_vis x v hxv)
  nodup := by
    rw [List.nodup_append]
    exact ⟨hinv.nodup, List.nodup_singleton _, by simpa using hnv⟩
  rank := by
    intro v hv
    rcases List.mem_append.mp hv with hv | hv
    · rcases hinv.rank v hv with h | ⟨e, he, hlt⟩
      · exact Or.inl h
      · refine Or.inr ⟨e, he, ?_⟩
        rw [rankOf_append_of_mem _ (hinv.parent_vis v e he), rankOf_append_of_mem _ hv]
        exact hlt
    · rw [List.mem_singleton] at hv
      subst hv
      rcases hinv.pq_dom v (hpq) with h | h
      · exact Or.inl h
      · obtain ⟨e, he⟩ := Option.isSome_iff_exists.mp h
        refine Or.inr ⟨e, he, ?_⟩
        have hpar : e.1 ∈ vis := hinv.parent_vis v e he
        rw [rankOf_append_of_mem _ hpar, rankOf_append_self_of_not_mem hnv]
        exact rankOf_lt_length hpar
  start_vis := fun _ => hinv.start_mem_extend hpq
  base := by
    intro h
    exact absurd h (by simp)

/-- Relaxing the settled node's outgoing edges preserves the
invariant (the settled node and the start are both in `visited`). -/
theorem LoopInv.relax_preserve {start : Node} {pq : List PQEntry} {prev : PrevMap}
    {vis' : List Node} (hinv : LoopInv start pq prev vis') (hstart : start ∈ vis')
    (cs cl : String) (hcn : (cs, cl) ∈ vis') (wf : Option WeightFn) (dval : ℚ)
    (trval : ℕ) (es : List (String × String × ℕ)) (dist0 : DistMap) :
    LoopInv start
      ((es.foldl (relaxEdge wf cs cl dval trval vis') ⟨pq, dist0, prev⟩).pq)
      ((es.foldl (relaxEdge wf cs cl dval trval vis') ⟨pq, dist0, prev⟩).prev)
      vis' where
  start_not_dom := by
    rw [foldRelax_prev_visited wf cs cl dval trval vis' es _ hstart]
    exact hinv.start_not_dom
  pq_dom := by
    intro n hn
    rcases foldRelax_pq wf cs cl dval trval vis' es _ hn with h | h
    · rcases hinv.pq_dom n h with h2 | h2
      · exact Or.inl h2
      · exact Or.inr (foldRelax_prev_mono wf cs cl dval trval vis' es _ h2)
    · exact Or.inr h
  parent_vis := by
    intro x v hxv
    rcases foldRelax_prev_parent wf cs cl dval trval vis' es _ hxv with h | h
    · exact hinv.parent_vis x v h
    · rw [h]
      exact hcn
  nodup := hinv.nodup
  rank := by
    intro v hv
    rcases hinv.rank v hv with h | ⟨e, he, hlt⟩
    · exact Or.inl h
    · refine Or.inr ⟨e, ?_, hlt⟩
      rw [foldRelax_prev_visited wf cs cl dval trval vis' es _ hv]
      exact he
  start_vis := fun _ => hstart
  base := by
    intro h
    rw [h] at hstart
    exact absurd hstart (List.not_mem_nil _)

/-- The main loop lemma: any successful run of `dijkstraLoop` from an
invariant-satisfying state yields a result satisfying `LoopPost`. -/
theorem dijkstraLoop_post (wf : Option WeightFn) (end_station : String) (maxT : ℕ)
    (start : Node) :
    ∀ (fuel : ℕ) (pq : List PQEntry) (dist : DistMap) (prev : PrevMap)
      (vis : List Node) (info : PathInfo),
      LoopInv start pq prev vis →
      dijkstraLoop wf end_station maxT fuel pq dist prev vis = some info →
      LoopPost start end_station info := by
  intro fuel
  induction fuel with
  | zero =>
    intro pq dist prev vis info _ h
    exact absurd h (by simp [dijkstraLoop])
  | succ n ih =>
    intro pq dist prev vis info hinv hrun
    rw [dijkstraLoop] at hrun
    rcases hpop : popMin pq with _ | ⟨en, pq'⟩
    · rw [hpop] at hrun
      exact absurd hrun (by simp)
    · rw [hpop] at hrun
      simp only at hrun
      obtain ⟨hen_mem, hrest⟩ := popMin_eq hpop
      have hnode : (en.2.1, en.2.2.1) ∈ pqNodes pq := pqNodes_mem_of_entry hen_mem
      have hsub : pqNodes pq' ⊆ pqNodes pq := by
        rw [hrest]
        exact pqNodes_erase_subset pq en
      by_cases hv : (en.2.1, en.2.2.1) ∈ vis
      · rw [if_pos hv] at hrun
        refine ih pq' dist prev vis info ?_ hrun
        exact { hinv with
          pq_dom := fun n hn => hinv.pq_dom n (hsub hn)
          base := by
            intro h
            rw [h] at hv
            exact absurd hv (List.not_mem_nil _) }
      · rw [if_neg hv] at hrun
        have hinv' := hinv.extend_vis hnode hv hsub
        have hstart' : start ∈ vis ++ [(en.2.1, en.2.2.1)] := hinv.start_mem_extend hnode
        by_cases hd : en.2.1 = end_station
        · rw [if_pos hd] at hrun
          have hinfo := Option.some_inj.mp hrun
          subst hinfo
          exact { end_st := hd
                  end_vis := List.mem_append_right _ (List.mem_singleton_self _)
                  start_not_dom := hinv'.start_not_dom
                  parent_vis := hinv'.parent_vis
                  nodup := hinv'.nodup
                  rank := hinv'.rank
                  start_vis := hstart' }
        · rw [if_neg hd] at hrun
          by_cases hc : maxT < en.2.2.2
          · rw [if_pos hc] at hrun
            exact ih pq' dist prev _ info hinv' hrun
          · rw [if_neg hc] at hrun
            refine ih _ _ _ _ info ?_ hrun
            exact hinv'.relax_preserve hstart' en.2.1 en.2.2.1
              (List.mem_append_right _ (List.mem_singleton_self _)) wf en.1 en.2.2.2 _ dist

/-- The backtracking walk of `_extract_route` terminates at the start
node, and (for a non-start node) its last step is the node itself:
induction on the settlement rank. -/
theorem walkPrev_shape (prev : PrevMap) (start : Node) (vis : List Node)
    (hnd : lookupNode prev start = none)
    (hpar : ∀ x v, lookupNode prev x = some v → v.1 ∈ vis)
    (hrank : ∀ v ∈ vis, v = start ∨ ∃ e, lookupNode prev v = some e ∧
      rankOf vis e.1 < rankOf vis v) :
    ∀ (n : ℕ) (v : Node), v ∈ vis → rankOf vis v < n →
      ∀ (fuel : ℕ), rankOf vis v < fuel →
        (walkPrev prev fuel v).1 = start ∧
          (v = start → (walkPrev prev fuel v).2 = []) ∧
          (v ≠ start → ∃ pre tt b, (walkPrev prev fuel v).2 = pre ++ [(v, tt, b)]) := by
  intro n
  induction n with
  | zero =>
    intro v _ h
    exact absurd h (Nat.not_lt_zero _)
  | succ n ih =>
    intro v hv hn fuel hfuel
    obtain ⟨fl, rfl⟩ : ∃ fl, fuel = fl + 1 := by
      rcases fuel with _ | fl
      · exact absurd hfuel (Nat.not_lt_zero _)
      · exact ⟨fl, rfl⟩
    by_cases hs : v = start
    · subst hs
      rw [walkPrev]
      simp only [hnd]
      exact ⟨by trivial, fun _ => by trivial, fun hne => absurd rfl hne⟩
    · rcases hrank v hv with h | ⟨e, he, hlt⟩
      · exact absurd h hs
      · have hpv : e.1 ∈ vis := hpar v e he
        have h1 : rankOf vis e.1 < n := by omega
        have h2 : rankOf vis e.1 < fl := by omega
        have IH := ih e.1 hpv h1 fl h2
        rw [walkPrev]
        simp only [he]
        exact ⟨IH.1, fun h => absurd h hs,
          fun _ => ⟨(walkPrev prev fl e.1).2, e.2.1, e.2.2, rfl⟩⟩

/-- A duplicate-free list has at most one element equal to `s`. -/
theorem nodup_length_le_filter (s : Node) :
    ∀ (l : List Node), l.Nodup →
      l.length ≤ (l.filter (fun v => decide (v ≠ s))).length + 1 := by
  intro l
  induction l with
  | nil => intro _; simp
  | cons x xs ih =>
    intro hnd
    obtain ⟨hx_notin, hnd'⟩ := List.nodup_cons.mp hnd
    by_cases hx : x = s
    · subst hx
      rw [List.filter_cons, if_neg (by simp)]
      have hall : xs.filter (fun v => decide (v ≠ x)) = xs :=
        List.filter_eq_self.mpr (fun v hv => by
          simp only [decide_eq_true_eq]
          intro hvx
          exact hx_notin (hvx ▸ hv))
      rw [hall]
      simp
    · rw [List.filter_cons, if_pos (by simpa using hx)]
      have := ih hnd'
      simp only [List.length_cons]
      omega

/-- Every settled node other than the start carries a `previous`
entry, so there are at most `previous.length + 1` settled nodes. -/
theorem visited_le_prev {start : Node} {end_station : String} {info : PathInfo}
    (post : LoopPost start end_station info) :
    info.visited.length ≤ info.previous.length + 1 := by
  classical
  have hsub : ∀ v ∈ info.visited.filter (fun v => decide (v ≠ start)),
      v ∈ info.previous.map Prod.fst := by
    intro v hvf
    obtain ⟨hv, hvs⟩ := List.mem_filter.mp hvf
    have hvs' : v ≠ start := by simpa using hvs
    rcases post.rank v hv with h | ⟨e, he, -⟩
    · exact absurd h hvs'
    · simp only [lookupNode, Option.map_eq_some'] at he
      obtain ⟨p, hp, -⟩ := he
      have hmem := List.mem_of_find?_eq_some hp
      have hkey := List.find?_some hp
      simp only [beq_iff_eq] at hkey
      exact hkey ▸ List.mem_map_of_mem Prod.fst hmem
  have hnd : (info.visited.filter (fun v => decide (v ≠ start))).Nodup :=
    post.nodup.filter _
  have hlen : (info.visited.filter (fun v => decide (v ≠ start))).length ≤
      info.previous.length := by
    calc (info.visited.filter (fun v => decide (v ≠ start))).length
        = (info.visited.filter (fun v => decide (v ≠ start))).toFinset.card := by
          rw [List.toFinset_card_of_nodup hnd]
      _ ≤ (info.previous.map Prod.fst).toFinset.card := by
          apply Finset.card_le_card
          intro x hx
          rw [List.mem_toFinset] at hx ⊢
          exact hsub x hx
      _ ≤ (info.previous.map Prod.fst).length := List.toFinset_card_le _
      _ = info.previous.length := List.length_map _ _
  have := nodup_length_le_filter start info.visited post.nodup
  omega

/-- The `unique_lines` dedup produces a list with no two equal
consecutive entries. -/
theorem uniqueLines_chain (lines : List String) :
    (uniqueLines lines).Chain' (fun a b => a ≠ b) := by
  have aux : ∀ (l acc : List String), acc.Chain' (fun a b => a ≠ b) →
      (l.foldl (fun acc line =>
        if acc = [] ∨ acc.getLast? ≠ some line then acc ++ [line] else acc) acc).Chain'
        (fun a b => a ≠ b) := by
    intro l
    induction l with
    | nil => intro acc h; exact h
    | cons x xs ih =>
      intro acc h
      rw [List.foldl_cons]
      apply ih
      split_ifs with hg
      · rw [List.chain'_append]
        refine ⟨h, List.chain'_singleton _, ?_⟩
        intro a ha b hb
        simp only [List.head?_cons, Option.mem_def, Option.some.injEq] at hb
        subst hb
        rcases hg with hg | hg
        · rw [hg] at ha
          simp at ha
        · intro hab
          rw [Option.mem_def] at ha
          exact hg (hab ▸ ha)
      · exact h
  exact aux lines [] List.chain'_nil

/-- The shape of every extracted route: it starts at the start node's
station, ends at the destination, counts its stops, and has
deduplicated lines. -/
theorem extract_route_shape {start : Node} {end_station : String} {info : PathInfo}
    (post : LoopPost start end_station info) (hne : end_station ≠ start.1) :
    (extract_route info).stations.head? = some start.1 ∧
      (extract_route info).stations.getLast? = some end_station ∧
      (extract_route info).stations.length = (extract_route info).total_stops ∧
      2 ≤ (extract_route info).total_stops ∧
      (extract_route info).lines.Chain' (fun a b => a ≠ b) := by
  have hvne : info.end_state ≠ start := by
    intro h
    exact hne (by rw [← post.end_st, h])
  have hrank_lt : rankOf info.visited info.end_state < info.previous.length + 1 := by
    have h1 := rankOf_lt_length post.end_vis
    have h2 := visited_le_prev post
    omega
  obtain ⟨hw1, -, hw3⟩ := walkPrev_shape info.previous start info.visited
    post.start_not_dom post.parent_vis post.rank
    (rankOf info.visited info.end_state + 1) info.end_state post.end_vis
    (Nat.lt_succ_self _) (info.previous.length + 1) hrank_lt
  obtain ⟨pre, tt, b, hsteps⟩ := hw3 hvne
  refine ⟨?_, ?_, rfl, ?_, ?_⟩
  · show ((walkPrev info.previous (info.previous.length + 1) info.end_state).1.1 ::
      _).head? = some start.1
    rw [List.head?_cons, hw1]
  · show ((walkPrev info.previous (info.previous.length + 1) info.end_state).1.1 ::
      ((walkPrev info.previous (info.previous.length + 1) info.end_state).2.map
        (fun st => st.1.1))).getLast? = some end_station
    rw [hsteps, List.map_append]
    simp only [List.map_cons, List.map_nil]
    rw [← List.cons_append, List.getLast?_concat]
    exact congrArg some post.end_st
  · show 2 ≤ ((walkPrev info.previous (info.previous.length + 1) info.end_state).1.1 ::
      ((walkPrev info.previous (info.previous.length + 1) info.end_state).2.map
        (fun st => st.1.1))).length
    rw [hsteps]
    simp
  · exact uniqueLines_chain _

/-- A successful `_dijkstra` run satisfies the postcondition (the
initial state trivially satisfies the invariant). -/
theorem dijkstra_post {o sl dst : String} {wf : Option WeightFn} {m : ℕ} {p : PathInfo}
    (h : dijkstra o sl dst wf m = some p) : LoopPost (o, sl) dst p := by
  refine dijkstraLoop_post wf dst m (o, sl) dijkstraFuel _ _ _ _ p ?_ h
  exact
    { start_not_dom := rfl
      pq_dom := by
        intro n hn
        simp only [pqNodes, List.map_cons, List.map_nil, List.mem_singleton] at hn
        exact Or.inl hn
      parent_vis := by
        intro x v hxv
        exact absurd hxv (by simp [lookupNode])
      nodup := List.nodup_nil
      rank := by
        intro v hv
        exact absurd hv (List.not_mem_nil _)
      start_vis := fun h => absurd rfl h
      base := by
        intro _
        refine ⟨rfl, ?_⟩
        intro n hn
        simpa [pqNodes] using hn }

/-- The best-of-start-lines fold yields either the accumulator or one
of the per-line search results. -/
theorem foldBest_some {o dst : String} {wf : Option WeightFn} {m : ℕ} :
    ∀ (ls : List String) (acc : Option PathInfo) (p : PathInfo),
      ls.foldl (pickBest o dst wf m) acc = some p →
      acc = some p ∨ ∃ sl ∈ ls, dijkstra o sl dst wf m = some p := by
  intro ls
  induction ls with
  | nil =>
    intro acc p h
    exact Or.inl h
  | cons sl rest ih =>
    intro acc p h
    rw [List.foldl_cons] at h
    rcases ih _ p h with hacc | ⟨sl', hsl', hd⟩
    · unfold pickBest at hacc
      rcases hdd : dijkstra o sl dst wf m with _ | q
      · rw [hdd] at hacc
        exact Or.inl hacc
      · rw [hdd] at hacc
        rcases acc with _ | bb
        · right
          exact ⟨sl, List.mem_cons_self _ _, by rw [hdd, Option.some_inj.mp hacc]⟩
        · simp only at hacc
          split_ifs at hacc with hcmp
          · right
            exact ⟨sl, List.mem_cons_self _ _, by rw [hdd, Option.some_inj.mp hacc]⟩
          · exact Or.inl hacc
    · exact Or.inr ⟨sl', List.mem_cons_of_mem _ hsl', hd⟩

theorem match_extract (x : Option PathInfo) (r : Route)
    (h : (match x with
      | none => none
      | some p => some (extract_route p)) = some r) :
    ∃ p, x = some p ∧ r = extract_route p := by
  cases x with
  | none => simp at h
  | some p => exact ⟨p, rfl, (Option.some_inj.mp h).symm⟩

/-! ## Claim theorems for the search engine -/

/-- C5: for every station that exists in the graph and any weight
function and transfer cap, searching from a station to itself returns
the single-station, zero-time, zero-transfer route with empty lines
and segments and `total_stops = 1`. -/
theorem c5_same_station_route :
    ∀ (s : String) (weight_func : Option WeightFn) (max_transfers : ℕ),
      validate_station s = true →
        find_shortest_path s s weight_func max_transfers = some (trivialRoute s) ∧
          (trivialRoute s).stations = [s] ∧ (trivialRoute s).lines = [] ∧
          (trivialRoute s).segments = [] ∧ (trivialRoute s).total_time_minutes = 0 ∧
          (trivialRoute s).total_transfers = 0 ∧ (trivialRoute s).total_stops = 1 := by
  intro s wf m h
  refine ⟨?_, rfl, rfl, rfl, rfl, rfl, rfl⟩
  simp [find_shortest_path, h]

/-- Witness for C5 at a station of the network. -/
theorem c5_same_station_route_witness :
    find_shortest_path "South Ferry" "South Ferry" none 5 =
      some (trivialRoute "South Ferry") :=
  (c5_same_station_route "South Ferry" none 5 (by decide)).1

/-- C8: whenever either endpoint is not a station of the network,
`find_shortest_path` returns the NotFound signal (`None`), for any
weight function and transfer cap (and, being a total function, it
raises no exception). -/
theorem c8_unknown_station_not_found :
    ∀ (o d : String) (weight_func : Option WeightFn) (max_transfers : ℕ),
      validate_station o = false ∨ validate_station d = false →
        find_shortest_path o d weight_func max_transfers = none := by
  intro o d wf m h
  rcases h with h | h
  · simp [find_shortest_path, h]
  · by_cases ho : validate_station o = false
    · simp [find_shortest_path, ho]
    · have ho' : validate_station o = true := by
        revert ho
        cases validate_station o <;> simp
      simp [find_shortest_path, ho', h]

/-- Witness for C8: the spec's example of an unknown origin. -/
theorem c8_unknown_station_not_found_witness :
    find_shortest_path "Nonexistent Station" "42nd Street-Times Square" none 5 = none :=
  c8_unknown_station_not_found _ _ none 5 (Or.inl (by decide))

/-- C7: `generate_routes` returns `None` exactly when all three named
searches fail, and otherwise returns exactly the succeeded subset, in
order Safe/Fast/Balanced, each tagged with its name — so one failed
search never suppresses the others. -/
theorem c7_partial_synthesis :
    ∀ (crime_data : NumMap) (origin destination : String),
      (generate_routes crime_data origin destination = none ↔
        find_shortest_path origin destination (some (weight_safe crime_data)) 5 = none ∧
          find_shortest_path origin destination (some weight_fast) 5 = none ∧
          find_shortest_path origin destination (some (weight_balanced crime_data)) 5 = none) ∧
      (∀ routes, generate_routes crime_data origin destination = some routes →
        routes =
          ((find_shortest_path origin destination (some (weight_safe crime_data)) 5).map
              (setName "SafeRoute")).toList ++
            ((find_shortest_path origin destination (some weight_fast) 5).map
              (setName "FastRoute")).toList ++
            ((find_shortest_path origin destination (some (weight_balanced crime_data)) 5).map
              (setName "BalancedRoute")).toList) := by
  intro cd o d
  simp only [generate_routes]
  rcases hs : find_shortest_path o d (some (weight_safe cd)) 5 with _ | s <;>
    rcases hf : find_shortest_path o d (some weight_fast) 5 with _ | f <;>
      rcases hb : find_shortest_path o d (some (weight_balanced cd)) 5 with _ | b <;>
        simp [hs, hf, hb]

/-- C6: the three weight functions compute exactly the spec's
formulas — Safe: `t*(1 + min(c,20)/10) + (5 if b else 0)`;
Fast: `t + (8 if b else 0)`;
Balanced: `0.5*t + 0.35*(min(c,20)*0.5) + 0.15*(6 if b else 0)` —
with `c` the crime count looked up at the edge's destination station,
defaulting to 5 when absent. -/
theorem c6_weight_formulas :
    (∀ (crime_data : NumMap) (cs ns cl nl : String) (t : ℕ) (b : Bool),
        weight_safe crime_data cs ns cl nl t b =
          (t : ℚ) * (1 + min (crimeAt crime_data ns) 20 / 10) +
            (if b then 5 else 0)) ∧
      (∀ (cs ns cl nl : String) (t : ℕ) (b : Bool),
        weight_fast cs ns cl nl t b = (t : ℚ) + (if b then 8 else 0)) ∧
      (∀ (crime_data : NumMap) (cs ns cl nl : String) (t : ℕ) (b : Bool),
        weight_balanced crime_data cs ns cl nl t b =
          0.5 * (t : ℚ) + 0.35 * (min (crimeAt crime_data ns) 20 * 0.5) +
            0.15 * (if b then 6 else 0)) ∧
      (∀ (crime_data : NumMap) (ns : String),
        lookup? crime_data ns = none → crimeAt crime_data ns = 5) := by
  refine ⟨?_, ?_, ?_, ?_⟩
  · intro cd cs ns cl nl t b
    cases b <;> simp [weight_safe]
  · intro cs ns cl nl t b
    cases b <;> simp [weight_fast]
  · intro cd cs ns cl nl t b
    cases b <;> simp only [weight_balanced, if_true, if_false] <;> ring
  · intro cd ns h
    simp only [lookup?, Option.map_eq_none'] at h
    simp [crimeAt, lookupD, h]

/-- Witness for C6's default clause at an absent station. -/
theorem c6_weight_formulas_witness :
    crimeAt [] "South Ferry" = 5 :=
  c6_weight_formulas.2.2.2 [] "South Ferry" (by decide)

/-- C9: every successful search between distinct stations returns a
route whose station list starts at the origin, ends at the
destination, and has length `total_stops ≥ 2`, with no two equal
consecutive entries in `lines` — for any weight function and cap. -/
theorem c9_route_shape :
    ∀ (origin destination : String) (weight_func : Option WeightFn)
      (max_transfers : ℕ) (r : Route),
      origin ≠ destination →
      find_shortest_path origin destination weight_func max_transfers = some r →
        r.stations.head? = some origin ∧
          r.stations.getLast? = some destination ∧
          r.stations.length = r.total_stops ∧
          2 ≤ r.total_stops ∧
          r.lines.Chain' (fun a b => a ≠ b) := by
  intro o d wf m r hne h
  simp only [find_shortest_path] at h
  split_ifs at h with h1 h2 h3
  obtain ⟨p, hp, hr⟩ := match_extract _ _ h
  rcases foldBest_some _ _ _ hp with hacc | ⟨sl, hsl, hd⟩
  · exact Option.noConfusion hacc
  · have post := dijkstra_post hd
    rw [hr]
    exact extract_route_shape post (Ne.symm hne)

/-- The concrete route used to witness C9. -/
def c9WitnessRoute : Route :=
  { name := "",
    stations := ["South Ferry", "Rector Street"],
    lines := ["1"],
    segments := [Segment.ride "1" "South Ferry" "Rector Street" 1 2],
    total_time_minutes := 2,
    total_transfers := 0,
    total_stops := 2,
    start_node := ("South Ferry", "1"),
    steps := [(("Rector Street", "1"), 2, false)] }

set_option maxHeartbeats 2000000 in
/-- Witness for C9 on the one-stop search South Ferry → Rector Street. -/
theorem c9_route_shape_witness :
    c9WitnessRoute.stations.head? = some "South Ferry" ∧
      c9WitnessRoute.stations.getLast? = some "Rector Street" ∧
      c9WitnessRoute.stations.length = c9WitnessRoute.total_stops ∧
      2 ≤ c9WitnessRoute.total_stops ∧
      c9WitnessRoute.lines.Chain' (fun a b => a ≠ b) :=
  c9_route_shape "South Ferry" "Rector Street" none 5 c9WitnessRoute
    (by decide) (by decide)

/-- Witness for C7: origin = destination, all three searches succeed
with the trivial route and all three tags are attached. -/
theorem c7_partial_synthesis_witness :
    [setName "SafeRoute" (trivialRoute "South Ferry"),
        setName "FastRoute" (trivialRoute "South Ferry"),
        setName "BalancedRoute" (trivialRoute "South Ferry")] =
      ((find_shortest_path "South Ferry" "South Ferry" (some (weight_safe [])) 5).map
          (setName "SafeRoute")).toList ++
        ((find_shortest_path "South Ferry" "South Ferry" (some weight_fast) 5).map
          (setName "FastRoute")).toList ++
        ((find_shortest_path "South Ferry" "South Ferry" (some (weight_balanced [])) 5).map
          (setName "BalancedRoute")).toList :=
  (c7_partial_synthesis [] "South Ferry" "South Ferry").2 _ (by decide)

end SmartRoute
